import Mathlib

/-!
Shallow embedding of the power-api library core: the structure-discovery
module (src/structure.c), the DVFS speed-level module (src/dvfs.c) and the
shared context (include/internals.h, include/power-api.h).

Conventions of the embedding:
* `pwr_ctx_t *` arguments are modelled as `PwrCtx` for the non-null case;
  a nullable pointer is `Option PwrCtx` (used by the `..._c` wrappers).
* An operation that can hit C undefined behaviour (store through a null
  pointer, out-of-bounds array access, `fprintf` on an unchecked `fopen`
  result) returns `Option _`, with `none` standing for undefined behaviour.
* Machine integers: `unsigned int` / `unsigned long` values are `Nat`
  (with an explicit `% 2^32` where C wraparound matters), `long` values
  (`speed_level_t`, `freq_t`, `speed_t`, `agility_t`) are `Int`, and the
  C usual-arithmetic-conversion of `unsigned int` to `long` in comparisons
  is the coercion `(· : Int)`.
* File-system reads and writes are oracles (`DvfsEnv`, `StructEnv`,
  `WriteOutcome`): a read returns `Option` content, a write either
  succeeds or fails as the oracle dictates.
-/

namespace PowerAPI

/-! ### Error codes (include/power-api.h) -/

def PWR_UNIMPLEMENTED : Int := -2
def PWR_UNINITIALIZED : Int := -1
def PWR_OK : Int := 0
def PWR_ERR : Int := 1
def PWR_UNAVAILABLE : Int := 2
def PWR_ARCH_UNSUPPORTED : Int := -3
def PWR_REQUEST_DENIED : Int := 4
def PWR_INIT_ERR : Int := 5
def PWR_UNSUPPORTED_SPEED_LEVEL : Int := 9
def PWR_ALREADY_MINMAX : Int := 11
def PWR_INVALID_ISLAND : Int := 15
def PWR_DVFS_ERR : Int := 16

/-- Module ids (`pwr_module_id_t`): `PWR_MODULE_STRUCT = 0`. -/
def PWR_MODULE_STRUCT : Nat := 0

/-- `PWR_MODULE_DVFS = 1`. -/
def PWR_MODULE_DVFS : Nat := 1

/-- `PWR_NB_MODULES = 4`. -/
def PWR_NB_MODULES : Nat := 4

/-! ### Data model (include/internals.h) -/

/-- `phys_island_t`.  `num_cpu` is `cpus.length`; `num_speed_levels` is the
`unsigned int` field; `current_speed_level`, `min_speed_level`,
`max_speed_level` are `speed_level_t` (= `long`); `freqs` is the
`freq_t*` table (its allocated length is `num_speed_levels`);
`agility` is `agility_t` (= `long`).  The voltage fields are never read
by the code under consideration and are omitted. -/
structure PhysIsland where
  cpus : List Nat
  num_speed_levels : Nat
  current_speed_level : Int
  min_speed_level : Int
  max_speed_level : Int
  freqs : List Int
  agility : Int
deriving Repr, DecidableEq

/-- `pwr_ctx_t`.  `module_init` is the initialized-modules bitmask;
`error` the last error; `phys_islands` the island array (its allocated
length is `num_phys_islands` for contexts built by `init_struct_module`,
but the two are separate fields as in the C).  The `err_fd`, throttle
file handles and energy fields carry no state the claims observe and are
modelled by the oracles instead. -/
structure PwrCtx where
  module_init : Nat
  error : Int
  num_phys_cpu : Nat
  num_phys_islands : Nat
  phys_islands : List PhysIsland
deriving Repr, DecidableEq

/-- `pwr_is_initialized` (src/power-api.c), non-null case: bitmask test,
`false` for an out-of-range module id. -/
def pwr_is_initialized (ctx : PwrCtx) (m : Nat) : Bool :=
  if m ≥ PWR_NB_MODULES then false else ctx.module_init.testBit m

/-- C conversion `long` → `unsigned int` (value mod 2^32, non-negative). -/
def toU32 (x : Int) : Nat := (x % 4294967296).toNat

/-- `current_level + delta` where `current_level : unsigned int` and
`delta : int`: the `int` is converted to `unsigned int` and the addition
wraps mod 2^32. -/
def u32add (a : Nat) (d : Int) : Nat := (((a : Int) + d) % 4294967296).toNat

/-! ### Speed-level accessors (src/dvfs.c), non-null context -/

/-- `pwr_num_speed_levels` (src/dvfs.c:36). -/
def pwr_num_speed_levels (ctx : PwrCtx) (island : Nat) :
    Option (PwrCtx × Nat) :=
  if ¬ pwr_is_initialized ctx PWR_MODULE_DVFS then
    some ({ctx with error := PWR_UNINITIALIZED}, 0)
  else if island ≥ ctx.num_phys_islands then
    some ({ctx with error := PWR_INVALID_ISLAND}, 0)
  else match ctx.phys_islands[island]? with
    | none => none
    | some isl => some ({ctx with error := PWR_OK}, isl.num_speed_levels)

/-- `pwr_current_speed_level` (src/dvfs.c:56); the `long` field is
returned as `unsigned int`. -/
def pwr_current_speed_level (ctx : PwrCtx) (island : Nat) :
    Option (PwrCtx × Nat) :=
  if ¬ pwr_is_initialized ctx PWR_MODULE_DVFS then
    some ({ctx with error := PWR_UNINITIALIZED}, 0)
  else if island ≥ ctx.num_phys_islands then
    some ({ctx with error := PWR_INVALID_ISLAND}, 0)
  else match ctx.phys_islands[island]? with
    | none => none
    | some isl => some ({ctx with error := PWR_OK},
                        toU32 isl.current_speed_level)

/-- Outcome of the `fprintf` + `fflush` pair on an island's persistent
throttle handle. -/
inductive WriteOutcome where
  | writeErr : WriteOutcome
  | flushErr : WriteOutcome
  | ok : WriteOutcome
deriving Repr, DecidableEq

/-- Result of `pwr_request_speed_level`: the updated context, and the
frequency value pushed to the throttle handle (`none` when no hardware
write was attempted). -/
structure ReqResult where
  ctx : PwrCtx
  hwWrite : Option Int
deriving Repr, DecidableEq

/-- `pwr_request_speed_level` (src/dvfs.c:76). -/
def pwr_request_speed_level (w : WriteOutcome) (ctx : PwrCtx)
    (island : Nat) (new_level : Nat) : Option ReqResult :=
  if ¬ pwr_is_initialized ctx PWR_MODULE_DVFS then
    some ⟨{ctx with error := PWR_UNINITIALIZED}, none⟩
  else if island ≥ ctx.num_phys_islands then
    some ⟨{ctx with error := PWR_INVALID_ISLAND}, none⟩
  else match ctx.phys_islands[island]? with
    | none => none
    | some isl =>
      if (new_level : Int) < isl.min_speed_level ∨
         (new_level : Int) > isl.max_speed_level then
        some ⟨{ctx with error := PWR_UNSUPPORTED_SPEED_LEVEL}, none⟩
      else if ((new_level : Int) = isl.min_speed_level ∨
               (new_level : Int) = isl.max_speed_level) ∧
              (new_level : Int) = isl.current_speed_level then
        some ⟨{ctx with error := PWR_ALREADY_MINMAX}, none⟩
      else match isl.freqs[new_level]? with
        | none => none
        | some f =>
          match w with
          | .writeErr => some ⟨{ctx with error := PWR_DVFS_ERR}, some f⟩
          | .flushErr => some ⟨{ctx with error := PWR_DVFS_ERR}, some f⟩
          | .ok => some ⟨{ctx with
                           error := PWR_OK,
                           phys_islands := ctx.phys_islands.set island
                             {isl with current_speed_level := (new_level : Int)}},
                         some f⟩

/-- `pwr_increase_speed_level` (src/dvfs.c:136): reads the current level
and delegates to `pwr_request_speed_level` at `current_level + delta`
(wrapping `unsigned int` addition). -/
def pwr_increase_speed_level (w : WriteOutcome) (ctx : PwrCtx)
    (island : Nat) (delta : Int) : Option ReqResult :=
  if ¬ pwr_is_initialized ctx PWR_MODULE_DVFS then
    some ⟨{ctx with error := PWR_UNINITIALIZED}, none⟩
  else match pwr_current_speed_level ctx island with
    | none => none
    | some (ctx1, current_level) =>
      pwr_request_speed_level w ctx1 island (u32add current_level delta)

/-- `pwr_agility` (src/dvfs.c:152).  Note: the source has no
`island >= ctx->num_phys_islands` check; `ctx->phys_islands[island]` is
read unguarded, so an out-of-range island id is an out-of-bounds access
(`none`). -/
def pwr_agility (ctx : PwrCtx) (island : Nat)
    (from_level to_level : Nat) : Option (PwrCtx × Int) :=
  if ¬ pwr_is_initialized ctx PWR_MODULE_DVFS then
    some ({ctx with error := PWR_UNINITIALIZED}, 0)
  else match ctx.phys_islands[island]? with
    | none => none
    | some isl =>
      if (from_level : Int) < isl.min_speed_level ∨
         (from_level : Int) > isl.max_speed_level then
        some ({ctx with error := PWR_UNSUPPORTED_SPEED_LEVEL}, 0)
      else if (to_level : Int) < isl.min_speed_level ∨
              (to_level : Int) > isl.max_speed_level then
        some ({ctx with error := PWR_UNSUPPORTED_SPEED_LEVEL}, 0)
      else some ({ctx with error := PWR_OK}, isl.agility)

/-! ### Structure accessors (src/structure.c), non-null context -/

/-- `pwr_num_phys_cpus` (src/structure.c:35). -/
def pwr_num_phys_cpus (ctx : PwrCtx) : PwrCtx × Nat :=
  if ¬ pwr_is_initialized ctx PWR_MODULE_STRUCT then
    ({ctx with error := PWR_UNINITIALIZED}, 0)
  else ({ctx with error := PWR_OK}, ctx.num_phys_cpu)

/-- `pwr_num_phys_islands` (src/structure.c:50). -/
def pwr_num_phys_islands (ctx : PwrCtx) : PwrCtx × Nat :=
  if ¬ pwr_is_initialized ctx PWR_MODULE_STRUCT then
    ({ctx with error := PWR_UNINITIALIZED}, 0)
  else ({ctx with error := PWR_OK}, ctx.num_phys_islands)

/-- The island-search loop of `pwr_island_of_cpu`: scans
`phys_islands[i]` for `i < n`, returning the first island index whose
CPU list contains `cpu` (`some (some i)`), `some none` when the scan
completes without a hit, and `none` on an out-of-bounds island read. -/
def islandSearch (islands : List PhysIsland) (n : Nat) (cpu : Nat) :
    Nat → Option (Option Nat)
  | i =>
    if _h : i ≥ n then some none
    else match islands[i]? with
      | none => none
      | some isl =>
        if cpu ∈ isl.cpus then some (some i)
        else islandSearch islands n cpu (i + 1)
termination_by i => n - i

/-- `pwr_island_of_cpu` (src/structure.c:65): no initialization check in
the source; an out-of-range cpu id yields `PWR_REQUEST_DENIED` and the
island count; an unmatched in-range cpu yields `PWR_ERR` and the island
count. -/
def pwr_island_of_cpu (ctx : PwrCtx) (cpu : Nat) :
    Option (PwrCtx × Nat) :=
  if cpu ≥ ctx.num_phys_cpu then
    some ({ctx with error := PWR_REQUEST_DENIED}, ctx.num_phys_islands)
  else match islandSearch ctx.phys_islands ctx.num_phys_islands cpu 0 with
    | none => none
    | some (some i) => some ({ctx with error := PWR_OK}, i)
    | some none => some ({ctx with error := PWR_ERR}, ctx.num_phys_islands)

/-! ### Parsing helpers (glib / libc behaviour used by the source) -/

/-- Character-level model of `g_strsplit (s, " ", max)`: split on every
single separator occurrence, keeping empty fields between and after
separators.  (The `max_tokens` limits, `PWR_MAX_SPEED_LEVELS` and
`PWR_MAX_CPU_PER_PHYS_ISLAND`, are far above any input the claims touch
and are not modelled.) -/
def splitChars (sep : Char) : List Char → List (List Char)
  | [] => [[]]
  | c :: cs =>
    if c = sep then [] :: splitChars sep cs
    else match splitChars sep cs with
      | [] => [[c]]
      | t :: ts => (c :: t) :: ts

/-- `g_strsplit (s, " ", _)`: an empty string yields an empty vector. -/
def gSplit (s : String) : List String :=
  if s.data = [] then [] else (splitChars ' ' s.data).map String.mk

/-- The C `isspace` set. -/
def isSpaceChar (c : Char) : Bool :=
  c == ' ' || c == '\t' || c == '\n' || c == '\x0b' || c == '\x0c' || c == '\r'

/-- Value of a leading digit run, most significant first. -/
def digitsVal : List Char → Nat → Nat
  | [], acc => acc
  | c :: cs, acc =>
    if c.isDigit then digitsVal cs (10 * acc + (c.toNat - 48)) else acc

/-- libc `atoi`: skip leading whitespace, optional sign, leading digit
run; 0 when no digits. -/
def atoi (s : String) : Int :=
  match s.data.dropWhile isSpaceChar with
  | '-' :: cs => -(digitsVal cs 0 : Int)
  | '+' :: cs => (digitsVal cs 0 : Int)
  | cs => (digitsVal cs 0 : Int)

/-- C conversion `int`/`long` → `unsigned long` (value mod 2^64). -/
def toU64 (x : Int) : Nat := (x % 18446744073709551616).toNat

/-! ### Frequency-table construction (src/dvfs.c:488) -/

/-- `compare_freq` (src/dvfs.c:511): returns `f1 - f0`, i.e. negative
when `f0` is the higher frequency. -/
def compare_freq (f0 f1 : Int) : Int := f1 - f0

/-- Insertion step of the `g_array_sort` model: `x` goes before `y`
exactly when the comparator does not order `y` strictly first. -/
def insertByCompareFreq (x : Int) : List Int → List Int
  | [] => [x]
  | y :: ys =>
    if compare_freq x y ≤ 0 then x :: y :: ys
    else y :: insertByCompareFreq x ys

/-- `g_array_sort (tmp_sorted, compare_freq)` at the comparator's
declared value semantics: element `a` precedes `b` when
`compare_freq a b ≤ 0`.  (The C site casts the by-value comparator to
`GCompareFunc`, which actually receives element pointers; the model
takes the comparator at the values it was written for.) -/
def gArraySortFreq : List Int → List Int
  | [] => []
  | x :: xs => insertByCompareFreq x (gArraySortFreq xs)

/-- `sort_and_cast_freqs` (src/dvfs.c:488): `atoi` each string, then
sort with `compare_freq`. -/
def sort_and_cast_freqs (freqs : List String) : List Int :=
  gArraySortFreq (freqs.map atoi)

/-! ### Speed-module initialization (src/dvfs.c:199) -/

/-- Oracles for the sysfs files `init_speed_levels` touches, indexed by
the cpu id used to build the path.  `gov`, `avail` are raw file
contents (`none` = `g_file_get_contents` failure); `curfreq` is the
`sscanf`-parsed `scaling_cur_freq` value; `openOk` is `fopen`
success on `scaling_setspeed`; `writeOk` is `fprintf`+`fflush`
success on that handle. -/
structure DvfsEnv where
  gov : Nat → Option String
  avail : Nat → Option String
  curfreq : Nat → Option Int
  openOk : Nat → Bool
  writeOk : Nat → Bool

/-- Governor check for one path cpu id (src/dvfs.c:214): read failure is
`PWR_ARCH_UNSUPPORTED`; `strncmp ("userspace", gov, 9) != 0` is
`PWR_UNAVAILABLE`; `none` = pass. -/
def govCheckCpu (env : DvfsEnv) (c : Nat) : Option Int :=
  match env.gov c with
  | none => some PWR_ARCH_UNSUPPORTED
  | some g => if g.take 9 = "userspace" then none else some PWR_UNAVAILABLE

/-- First error of a left-to-right check sequence. -/
def firstErr : List (Option Int) → Option Int
  | [] => none
  | none :: rest => firstErr rest
  | some e :: _ => some e

/-- The governor loop (src/dvfs.c:206): for every island, for
`c = 0 .. num_cpu-1`, check cpu id `c`.  The source uses the loop index
`c` itself to build the sysfs path, not the island's member id
`cpus[c]`. -/
def govCheck (env : DvfsEnv) (islands : List PhysIsland) : Option Int :=
  firstErr (islands.map (fun isl =>
    firstErr ((List.range isl.cpus.length).map (govCheckCpu env))))

/-- The `scaling_cur_freq` fold (src/dvfs.c:302): `cur_freq` starts at 0
and takes the maximum over path cpu ids `0 .. k-1` (again the loop
index, not the member id); `none` = a read failed. -/
def maxCurFreq (env : DvfsEnv) : Nat → Option Int
  | 0 => some 0
  | k + 1 =>
    match maxCurFreq env k with
    | none => none
    | some cur =>
      match env.curfreq k with
      | none => none
      | some v => some (if v > cur then v else cur)

/-- The reconciliation scan (src/dvfs.c:337): index of the first table
entry equal to `cur`, or the table length when there is none. -/
def findLevel : List Int → Int → Nat
  | [], _ => 0
  | f :: fs, cur => if f = cur then 0 else findLevel fs cur + 1

/-- Per-island part of the second `init_speed_levels` loop
(src/dvfs.c:253): read `scaling_available_frequencies` from the
island's first member cpu, count tokens minus one, sort, set bounds,
then reconcile the current level.  Outer `none` = undefined behaviour
(`cpus[0]` on an empty island, or the `num_speed_levels = -1`
allocation when the split yields no token). -/
def initIslandSpeeds (env : DvfsEnv) (isl : PhysIsland) :
    Option (Except Int PhysIsland) :=
  match isl.cpus[0]? with
  | none => none
  | some cpu0 =>
    match env.avail cpu0 with
    | none => some (.error PWR_ARCH_UNSUPPORTED)
    | some content =>
      match gSplit content with
      | [] => none
      | _ :: _ =>
        let toks := gSplit content
        let nsl := toks.length - 1
        let freqs := sort_and_cast_freqs (toks.take nsl)
        match maxCurFreq env isl.cpus.length with
        | none => some (.error PWR_ARCH_UNSUPPORTED)
        | some cur =>
          let lvl := findLevel freqs cur
          if lvl = nsl then some (.error PWR_INIT_ERR)
          else some (.ok {isl with
            num_speed_levels := nsl,
            freqs := freqs,
            min_speed_level := 0,
            max_speed_level := (nsl : Int) - 1,
            current_speed_level := (lvl : Int)})

/-- The second loop over all islands, first error wins. -/
def initAllIslands (env : DvfsEnv) :
    List PhysIsland → Option (Except Int (List PhysIsland))
  | [] => some (.ok [])
  | isl :: rest =>
    match initIslandSpeeds env isl with
    | none => none
    | some (.error e) => some (.error e)
    | some (.ok isl') =>
      match initAllIslands env rest with
      | none => none
      | some (.error e) => some (.error e)
      | some (.ok rest') => some (.ok (isl' :: rest'))

/-- The pin-to-minimum loop (src/dvfs.c:388) over path cpu ids
`1 .. num_cpu-1` (loop index as path id).  The `fopen` result is used
without a null check, so an open failure is undefined behaviour
(outer `none`); a write/flush failure is `PWR_INIT_ERR`. -/
def pinRange (env : DvfsEnv) : List Nat → Option (Option Int)
  | [] => some none
  | c :: rest =>
    if ¬ env.openOk c then none
    else if ¬ env.writeOk c then some (some PWR_INIT_ERR)
    else pinRange env rest

/-- Per-island part of the throttle loop (src/dvfs.c:361): open the
persistent handle on the first member cpu (`fopen` failure is
`PWR_INIT_ERR`), pin the others, then write the island's maximum
frequency through the persistent handle. -/
def initThrottleIsland (env : DvfsEnv) (isl : PhysIsland) :
    Option (Option Int) :=
  match isl.cpus[0]? with
  | none => none
  | some cpu0 =>
    if ¬ env.openOk cpu0 then some (some PWR_INIT_ERR)
    else match pinRange env ((List.range isl.cpus.length).drop 1) with
      | none => none
      | some (some e) => some (some e)
      | some none =>
        if ¬ env.writeOk cpu0 then some (some PWR_INIT_ERR)
        else some none

/-- The throttle loop over all islands. -/
def throttleAll (env : DvfsEnv) : List PhysIsland → Option (Option Int)
  | [] => some none
  | isl :: rest =>
    match initThrottleIsland env isl with
    | none => none
    | some (some e) => some (some e)
    | some none => throttleAll env rest

/-- `init_speed_levels` (src/dvfs.c:199).  On any error the DVFS bit
stays clear and `ctx.error` holds the code; on success the islands are
updated, the bit is set and `ctx.error = PWR_OK`.  (On the C error
paths some island fields may already have been overwritten; no API
entry point reads them while the DVFS bit is clear, and the model
returns the pre-call islands there.) -/
def init_speed_levels (env : DvfsEnv) (ctx : PwrCtx) : Option PwrCtx :=
  match govCheck env ctx.phys_islands with
  | some e => some {ctx with error := e}
  | none =>
    match initAllIslands env ctx.phys_islands with
    | none => none
    | some (.error e) => some {ctx with error := e}
    | some (.ok islands') =>
      match throttleAll env islands' with
      | none => none
      | some (some e) => some {ctx with phys_islands := islands', error := e}
      | some none =>
        some {ctx with
          phys_islands := islands',
          error := PWR_OK,
          module_init := ctx.module_init ||| (1 <<< PWR_MODULE_DVFS)}

/-! ### Structure-module initialization (src/structure.c:97) -/

/-- Oracles for `init_struct_module`: `freqdom` and `affected` are the
contents of `freqdomain_cpus` / `affected_cpus` per cpu id; `translat`
is the `sscanf`-parsed `cpuinfo_transition_latency` value (`none` = the
file read failed). -/
structure StructEnv where
  freqdom : Nat → Option String
  affected : Nat → Option String
  translat : Nat → Option Int

/-- The membership read (src/structure.c:119): prefer `freqdomain_cpus`,
fall back to `affected_cpus`. -/
def readDomain (env : StructEnv) (cpu : Nat) : Option String :=
  match env.freqdom cpu with
  | some s => some s
  | none => env.affected cpu

/-- `compare_phys_cpu_id` (src/structure.c:312): `i0 - i1` at the
declared value semantics (ascending; the C site has the same
by-value-comparator-as-`GCompareFunc` cast as `compare_freq`). -/
def compare_phys_cpu_id (i0 i1 : Nat) : Int := (i0 : Int) - (i1 : Int)

/-- Insertion step of the cpu-id `g_array_sort` model. -/
def insertByCompareCpu (x : Nat) : List Nat → List Nat
  | [] => [x]
  | y :: ys =>
    if compare_phys_cpu_id x y ≤ 0 then x :: y :: ys
    else y :: insertByCompareCpu x ys

/-- `g_array_sort (tmp_sorted, compare_phys_cpu_id)`. -/
def gArraySortCpu : List Nat → List Nat
  | [] => []
  | x :: xs => insertByCompareCpu x (gArraySortCpu xs)

/-- Parse one membership file (src/structure.c:150): split on spaces,
`atoi` every token (count = all tokens here, unlike the frequency
list), convert to `unsigned long`, sort ascending. -/
def parseCpus (s : String) : List Nat :=
  gArraySortCpu ((gSplit s).map (fun t => toU64 (atoi t)))

/-- Parsed membership key of one cpu, `none` when both reads fail. -/
def membKey (env : StructEnv) (cpu : Nat) : Option (List Nat) :=
  match readDomain env cpu with
  | none => none
  | some s => some (parseCpus s)

/-- The discovery loop (src/structure.c:114): for each cpu in order,
compute its key and append it to the island list unless an identical
key (deep equality, `phys_island_deep_eq`) is already present.
`none` = a membership read failed (`PWR_ARCH_UNSUPPORTED`). -/
def discoverFrom (env : StructEnv) :
    List Nat → List (List Nat) → Option (List (List Nat))
  | [], acc => some acc
  | c :: cs, acc =>
    match membKey env c with
    | none => none
    | some key =>
      if key ∈ acc then discoverFrom env cs acc
      else discoverFrom env cs (acc ++ [key])

/-- Keys of the canonical islands after the discovery loop. -/
def discoverIslands (env : StructEnv) (n : Nat) :
    Option (List (List Nat)) :=
  discoverFrom env (List.range n) []

/-- The agility loop (src/structure.c:203): read
`cpuinfo_transition_latency` from `cpus[0]` of each island (undefined
behaviour on an empty island) and build the `phys_island_t` records.
The speed fields are `malloc`-indeterminate until `init_speed_levels`
runs; the model fills them with 0/[] — nothing reads them while the
DVFS bit is clear. -/
def agilityAll (env : StructEnv) :
    List (List Nat) → Option (Except Int (List PhysIsland))
  | [] => some (.ok [])
  | cpus :: rest =>
    match cpus[0]? with
    | none => none
    | some c0 =>
      match env.translat c0 with
      | none => some (.error PWR_ARCH_UNSUPPORTED)
      | some ag =>
        match agilityAll env rest with
        | none => none
        | some (.error e) => some (.error e)
        | some (.ok rest') =>
          some (.ok ({cpus := cpus, num_speed_levels := 0,
                      current_speed_level := 0, min_speed_level := 0,
                      max_speed_level := 0, freqs := [],
                      agility := ag} :: rest'))

/-- `init_struct_module` (src/structure.c:97); `n` models
`sysconf (_SC_NPROCESSORS_ONLN)`.  On failure the STRUCT bit stays
clear and `ctx.error` holds the code; on success the islands are
installed, the bit is set and `ctx.error = PWR_OK`. -/
def init_struct_module (env : StructEnv) (n : Nat) (ctx : PwrCtx) :
    Option PwrCtx :=
  let ctx0 := {ctx with num_phys_cpu := n, num_phys_islands := 0}
  match discoverIslands env n with
  | none => some {ctx0 with error := PWR_ARCH_UNSUPPORTED}
  | some keys =>
    match agilityAll env keys with
    | none => none
    | some (.error e) =>
      some {ctx0 with num_phys_islands := keys.length, error := e}
    | some (.ok islands) =>
      some {ctx0 with
        num_phys_islands := keys.length,
        phys_islands := islands,
        error := PWR_OK,
        module_init := ctx.module_init ||| (1 <<< PWR_MODULE_STRUCT)}

/-! ### Nullable-pointer entry points

Every public function begins with
`if (ctx == NULL) { ctx->error = PWR_INIT_ERR; return ...; }`:
the guard's own body stores through the null pointer, which is
undefined behaviour (`none`).  A non-null pointer takes the body
verbatim. -/

/-- `pwr_num_phys_cpus` on a nullable context. -/
def pwr_num_phys_cpus_c : Option PwrCtx → Option (PwrCtx × Nat)
  | none => none
  | some ctx => some (pwr_num_phys_cpus ctx)

/-- `pwr_num_phys_islands` on a nullable context. -/
def pwr_num_phys_islands_c : Option PwrCtx → Option (PwrCtx × Nat)
  | none => none
  | some ctx => some (pwr_num_phys_islands ctx)

/-- `pwr_island_of_cpu` on a nullable context. -/
def pwr_island_of_cpu_c : Option PwrCtx → Nat → Option (PwrCtx × Nat)
  | none, _ => none
  | some ctx, cpu => pwr_island_of_cpu ctx cpu

/-- `pwr_num_speed_levels` on a nullable context. -/
def pwr_num_speed_levels_c : Option PwrCtx → Nat → Option (PwrCtx × Nat)
  | none, _ => none
  | some ctx, island => pwr_num_speed_levels ctx island

/-- `pwr_current_speed_level` on a nullable context. -/
def pwr_current_speed_level_c : Option PwrCtx → Nat → Option (PwrCtx × Nat)
  | none, _ => none
  | some ctx, island => pwr_current_speed_level ctx island

/-- `pwr_request_speed_level` on a nullable context. -/
def pwr_request_speed_level_c (w : WriteOutcome) :
    Option PwrCtx → Nat → Nat → Option ReqResult
  | none, _, _ => none
  | some ctx, island, level => pwr_request_speed_level w ctx island level

/-- `pwr_increase_speed_level` on a nullable context. -/
def pwr_increase_speed_level_c (w : WriteOutcome) :
    Option PwrCtx → Nat → Int → Option ReqResult
  | none, _, _ => none
  | some ctx, island, delta => pwr_increase_speed_level w ctx island delta

/-- `pwr_agility` on a nullable context. -/
def pwr_agility_c : Option PwrCtx → Nat → Nat → Nat → Option (PwrCtx × Int)
  | none, _, _, _ => none
  | some ctx, island, fromL, toL => pwr_agility ctx island fromL toL

/-! ### Concrete fixtures used by witnesses and counterexamples -/

/-- A DVFS-initialized island: 2 levels, table `[1600, 800]`,
current level 1, agility 42. -/
def islA : PhysIsland :=
  ⟨[0], 2, 1, 0, 1, [1600, 800], 42⟩

/-- A context with STRUCT and DVFS bits set and one island. -/
def ctxA : PwrCtx := ⟨3, 0, 1, 1, [islA]⟩

/-- A STRUCT-initialized two-island topology `[[0,1],[2,3]]` awaiting
DVFS initialization. -/
def ctxB : PwrCtx :=
  ⟨1, 0, 4, 2, [⟨[0, 1], 0, 0, 0, 0, [], 100⟩, ⟨[2, 3], 0, 0, 0, 0, [], 100⟩]⟩

/-- Environment where every cpu runs the userspace governor, both
islands expose frequencies `800 1600`, and the cpus of island 0 run at
800 kHz while the cpus of island 1 run at 1600 kHz. -/
def envB : DvfsEnv where
  gov := fun _ => some ("userspace\n")
  avail := fun c => if c = 0 ∨ c = 2 then some ("800 1600 \n") else none
  curfreq := fun c => if c ≤ 1 then some 800 else some 1600
  openOk := fun _ => true
  writeOk := fun _ => true

/-- Like `envB` but cpu 2 — a member of island 1 — runs the
`performance` governor. -/
def envC : DvfsEnv where
  gov := fun c => if c = 2 then some ("performance\n") else some ("userspace\n")
  avail := fun c => if c = 0 ∨ c = 2 then some ("800 1600 \n") else none
  curfreq := fun c => if c ≤ 1 then some 800 else some 1600
  openOk := fun _ => true
  writeOk := fun _ => true

/-- One-island context for the frequency-order fixture. -/
def ctxD : PwrCtx := ⟨1, 0, 1, 1, [⟨[0], 0, 0, 0, 0, [], 100⟩]⟩

/-- One cpu exposing frequencies `1000 2000` and currently at 2000. -/
def envD : DvfsEnv where
  gov := fun _ => some ("userspace\n")
  avail := fun _ => some ("1000 2000 \n")
  curfreq := fun _ => some 2000
  openOk := fun _ => true
  writeOk := fun _ => true

/-- Discovery fixture: both cpus report membership `"0"`, so cpu 1 is
covered by no island; all reads succeed. -/
def envE : StructEnv where
  freqdom := fun c => if c < 2 then some ("0") else none
  affected := fun _ => none
  translat := fun _ => some 100

/-- A fresh context before any initialization. -/
def ctx0 : PwrCtx := ⟨0, 0, 0, 0, []⟩

/-! ### Claim theorems -/

/-- C2: the claim says the frequency table is sorted ascending with the
lowest legal frequency at index 0.  The source's comparator
`compare_freq (f0, f1) = f1 - f0` orders higher frequencies first, so
the table built by a successful Speed-module initialization from the
list `1000 2000` is `[2000, 1000]`: index 0 holds the highest
frequency, not the lowest, although the comment above the call reads
"Sort frequencies low to high". -/
theorem c2_freq_table_is_descending :
    init_speed_levels envD ctxD =
      some ⟨3, 0, 1, 1, [⟨[0], 2, 0, 0, 1, [2000, 1000], 100⟩]⟩ ∧
    sort_and_cast_freqs ["1000", "2000"] = [2000, 1000] ∧
    compare_freq 1000 2000 = 1000 ∧
    (1000 : Int) < 2000 := by decide

/-- C4: the claim says the reconciliation reads `scaling_cur_freq` from
each member CPU of the island.  The source's inner loop uses its index
as the sysfs cpu id, so for island 1 = `[2,3]` of `ctxB` it reads cpus
0 and 1 instead.  With cpus 0,1 at 800 kHz and the island's own members
2,3 at 1600 kHz, initialization succeeds and leaves island 1 at level 1
(the index of 800), while the index of the members' maximum 1600 is
0. -/
theorem c4_reconciliation_reads_wrong_cpus :
    init_speed_levels envB ctxB =
      some ⟨3, 0, 4, 2,
        [⟨[0, 1], 2, 1, 0, 1, [1600, 800], 100⟩,
         ⟨[2, 3], 2, 1, 0, 1, [1600, 800], 100⟩]⟩ ∧
    envB.curfreq 2 = some 1600 ∧
    envB.curfreq 3 = some 1600 ∧
    findLevel [1600, 800] 1600 = 0 ∧
    (1 : Int) ≠ 0 := by decide

/-- C9: the claim says the `scaling_governor` of every member CPU of
every island must equal `userspace` or initialization stops.  The
governor loop also uses its index as the sysfs cpu id, so for the
topology `[[0,1],[2,3]]` it only ever reads cpus 0 and 1; with cpu 2
running the `performance` governor, initialization still succeeds with
`PWR_OK` and the DVFS bit set. -/
theorem c9_governor_check_reads_wrong_cpus :
    init_speed_levels envC ctxB =
      some ⟨3, 0, 4, 2,
        [⟨[0, 1], 2, 1, 0, 1, [1600, 800], 100⟩,
         ⟨[2, 3], 2, 1, 0, 1, [1600, 800], 100⟩]⟩ ∧
    envC.gov 2 = some ("performance\n") ∧
    ("performance\n").take 9 ≠ "userspace" := by decide

/-- C6: the claim says every per-island accessor rejects an
out-of-range island id with `PWR_INVALID_ISLAND`.  Four of the five do;
`pwr_agility` has no range check and dereferences
`phys_islands[island]` out of bounds (undefined behaviour, `none`). -/
theorem c6_agility_lacks_island_range_check :
    pwr_agility ctxA 1 0 0 = none ∧
    pwr_num_speed_levels ctxA 1 =
      some ({ctxA with error := PWR_INVALID_ISLAND}, 0) ∧
    pwr_current_speed_level ctxA 1 =
      some ({ctxA with error := PWR_INVALID_ISLAND}, 0) ∧
    pwr_request_speed_level .ok ctxA 1 0 =
      some ⟨{ctxA with error := PWR_INVALID_ISLAND}, none⟩ ∧
    pwr_increase_speed_level .ok ctxA 1 1 =
      some ⟨{ctxA with error := PWR_INVALID_ISLAND}, none⟩ := by decide

/-- C8 counterexample: the claim says `pwr_agility` returns the
island's precomputed scalar for all values of `from_level` and
`to_level`.  On `ctxA` (agility 42, levels 0..1), `from_level = 5`
yields 0 with `PWR_UNSUPPORTED_SPEED_LEVEL` instead. -/
theorem c8_counterexample :
    islA.agility = 42 ∧
    pwr_agility ctxA 0 5 0 =
      some ({ctxA with error := PWR_UNSUPPORTED_SPEED_LEVEL}, 0) ∧
    (0 : Int) ≠ 42 := by decide

/-- C8 amended: for an initialized context and an island slot that
exists, `pwr_agility` returns the island's single precomputed scalar —
independent of the particular levels — whenever both supplied levels
lie within `[min_speed_level, max_speed_level]`; a level outside that
range yields `PWR_UNSUPPORTED_SPEED_LEVEL` and 0. -/
theorem c8_agility_amended (ctx : PwrCtx) (island from_level to_level : Nat)
    (isl : PhysIsland)
    (hinit : pwr_is_initialized ctx PWR_MODULE_DVFS = true)
    (hget : ctx.phys_islands[island]? = some isl) :
    ((isl.min_speed_level ≤ (from_level : Int) ∧
      (from_level : Int) ≤ isl.max_speed_level ∧
      isl.min_speed_level ≤ (to_level : Int) ∧
      (to_level : Int) ≤ isl.max_speed_level) →
      pwr_agility ctx island from_level to_level =
        some ({ctx with error := PWR_OK}, isl.agility)) ∧
    (((from_level : Int) < isl.min_speed_level ∨
      (from_level : Int) > isl.max_speed_level ∨
      (to_level : Int) < isl.min_speed_level ∨
      (to_level : Int) > isl.max_speed_level) →
      pwr_agility ctx island from_level to_level =
        some ({ctx with error := PWR_UNSUPPORTED_SPEED_LEVEL}, 0)) := by
  unfold pwr_agility
  rw [hinit]
  simp only [not_true, if_false, hget]
  constructor
  · rintro ⟨h1, h2, h3, h4⟩
    rw [if_neg (by omega), if_neg (by omega)]
  · intro h
    rcases h with h | h | h | h
    · rw [if_pos (Or.inl h)]
    · rw [if_pos (Or.inr h)]
    · by_cases hf : (from_level : Int) < isl.min_speed_level ∨
        (from_level : Int) > isl.max_speed_level
      · rw [if_pos hf]
      · rw [if_neg hf, if_pos (Or.inl h)]
    · by_cases hf : (from_level : Int) < isl.min_speed_level ∨
        (from_level : Int) > isl.max_speed_level
      · rw [if_pos hf]
      · rw [if_neg hf, if_pos (Or.inr h)]

/-- C8 amended witness: the amended theorem applied to `ctxA` at
in-range levels (1, 0) returns the precomputed 42. -/
theorem c8_agility_amended_witness :
    pwr_agility ctxA 0 1 0 = some ({ctxA with error := PWR_OK}, 42) := by
  have h := (c8_agility_amended ctxA 0 1 0 islA (by decide) (by decide)).1
    (by decide)
  exact h.trans (by decide)

/-- C10: each public entry point guards a null context by storing
`PWR_INIT_ERR` through the null pointer itself, which is undefined
behaviour; so on a null context every one of the eight operations is
undefined, and on a non-null context the guard branch is unreachable
and the operation is exactly its body. -/
theorem c10_null_context_guard_is_null_deref :
    (pwr_num_phys_cpus_c none = none) ∧
    (pwr_num_phys_islands_c none = none) ∧
    (∀ cpu, pwr_island_of_cpu_c none cpu = none) ∧
    (∀ i, pwr_num_speed_levels_c none i = none) ∧
    (∀ i, pwr_current_speed_level_c none i = none) ∧
    (∀ w i l, pwr_request_speed_level_c w none i l = none) ∧
    (∀ w i d, pwr_increase_speed_level_c w none i d = none) ∧
    (∀ i f t, pwr_agility_c none i f t = none) ∧
    (∀ ctx, pwr_num_phys_cpus_c (some ctx) = some (pwr_num_phys_cpus ctx)) ∧
    (∀ ctx, pwr_num_phys_islands_c (some ctx) =
      some (pwr_num_phys_islands ctx)) ∧
    (∀ ctx cpu, pwr_island_of_cpu_c (some ctx) cpu =
      pwr_island_of_cpu ctx cpu) ∧
    (∀ ctx i, pwr_num_speed_levels_c (some ctx) i =
      pwr_num_speed_levels ctx i) ∧
    (∀ ctx i, pwr_current_speed_level_c (some ctx) i =
      pwr_current_speed_level ctx i) ∧
    (∀ w ctx i l, pwr_request_speed_level_c w (some ctx) i l =
      pwr_request_speed_level w ctx i l) ∧
    (∀ w ctx i d, pwr_increase_speed_level_c w (some ctx) i d =
      pwr_increase_speed_level w ctx i d) ∧
    (∀ ctx i f t, pwr_agility_c (some ctx) i f t =
      pwr_agility ctx i f t) :=
  ⟨rfl, rfl, fun _ => rfl, fun _ => rfl, fun _ => rfl,
   fun _ _ _ => rfl, fun _ _ _ => rfl, fun _ _ _ => rfl,
   fun _ => rfl, fun _ => rfl, fun _ _ => rfl, fun _ _ => rfl,
   fun _ _ => rfl, fun _ _ _ _ => rfl, fun _ _ _ _ => rfl,
   fun _ _ _ _ => rfl⟩

/-- C3 counterexample: discovery accepts (STRUCT bit set, `PWR_OK`) a
2-cpu machine where both membership files read `"0"`; the resulting
single island `[0]` does not cover cpu 1, so the islands do not
partition `0..num_phys_cpu-1`. -/
theorem c3_counterexample :
    init_struct_module envE 2 ctx0 =
      some ⟨1, 0, 2, 1, [⟨[0], 0, 0, 0, 0, [], 100⟩]⟩ ∧
    pwr_is_initialized ⟨1, 0, 2, 1, [⟨[0], 0, 0, 0, 0, [], 100⟩]⟩
      PWR_MODULE_STRUCT = true ∧
    ¬ ∃ isl ∈ ([⟨[0], 0, 0, 0, 0, [], 100⟩] : List PhysIsland),
        1 ∈ isl.cpus := by decide

/-! ### Helper lemmas on the speed-level operations -/

/-- With the guards discharged, `pwr_request_speed_level` is its body on
the selected island. -/
theorem request_unfold (w : WriteOutcome) (ctx : PwrCtx)
    (island level : Nat) (isl : PhysIsland)
    (hinit : pwr_is_initialized ctx PWR_MODULE_DVFS = true)
    (hisl : island < ctx.num_phys_islands)
    (hget : ctx.phys_islands[island]? = some isl) :
    pwr_request_speed_level w ctx island level =
      (if (level : Int) < isl.min_speed_level ∨
          (level : Int) > isl.max_speed_level then
        some ⟨{ctx with error := PWR_UNSUPPORTED_SPEED_LEVEL}, none⟩
      else if ((level : Int) = isl.min_speed_level ∨
               (level : Int) = isl.max_speed_level) ∧
              (level : Int) = isl.current_speed_level then
        some ⟨{ctx with error := PWR_ALREADY_MINMAX}, none⟩
      else match isl.freqs[level]? with
        | none => none
        | some f =>
          match w with
          | .writeErr => some ⟨{ctx with error := PWR_DVFS_ERR}, some f⟩
          | .flushErr => some ⟨{ctx with error := PWR_DVFS_ERR}, some f⟩
          | .ok => some ⟨{ctx with
                           error := PWR_OK,
                           phys_islands := ctx.phys_islands.set island
                             {isl with
                               current_speed_level := (level : Int)}},
                         some f⟩) := by
  unfold pwr_request_speed_level
  rw [hinit, hget]
  simp only [Bool.not_eq_true, if_neg (by omega : ¬ island ≥ ctx.num_phys_islands)]
  rfl

/-- The request path neither reads nor depends on the last-error
field. -/
theorem request_ignores_error (w : WriteOutcome) (ctx : PwrCtx)
    (island level : Nat) (e : Int) :
    pwr_request_speed_level w {ctx with error := e} island level =
      pwr_request_speed_level w ctx island level := rfl

/-- `pwr_current_speed_level` only updates the error field of the
context it returns. -/
theorem current_speed_level_shape (ctx ctx1 : PwrCtx) (island v : Nat)
    (h : pwr_current_speed_level ctx island = some (ctx1, v)) :
    ∃ e, ctx1 = {ctx with error := e} := by
  unfold pwr_current_speed_level at h
  split at h
  · injection h with h1
    injection h1 with ha hb
    exact ⟨PWR_UNINITIALIZED, ha.symm⟩
  · split at h
    · injection h with h1
      injection h1 with ha hb
      exact ⟨PWR_INVALID_ISLAND, ha.symm⟩
    · split at h
      · exact absurd h (by simp)
      · injection h with h1
        injection h1 with ha hb
        exact ⟨PWR_OK, ha.symm⟩

/-- With the guards discharged, `pwr_current_speed_level` returns
`PWR_OK` and the island's level as `unsigned int`. -/
theorem current_speed_level_unfold (ctx : PwrCtx) (island : Nat)
    (isl : PhysIsland)
    (hinit : pwr_is_initialized ctx PWR_MODULE_DVFS = true)
    (hisl : island < ctx.num_phys_islands)
    (hget : ctx.phys_islands[island]? = some isl) :
    pwr_current_speed_level ctx island =
      some ({ctx with error := PWR_OK}, toU32 isl.current_speed_level) := by
  unfold pwr_current_speed_level
  rw [hinit, hget]
  simp only [Bool.not_eq_true,
    if_neg (by omega : ¬ island ≥ ctx.num_phys_islands)]
  rfl

/-- C1: for an initialized context, an in-range island and a table
whose length matches the bounds: a level outside
`[min_speed_level, max_speed_level]` sets `PWR_UNSUPPORTED_SPEED_LEVEL`
and changes nothing; a level equal to a boundary and to the current
level sets `PWR_ALREADY_MINMAX` with no hardware write and changes
nothing; otherwise the table entry `freqs[level]` exists and is written
and flushed — on a write or flush failure the error is `PWR_DVFS_ERR`
and `current_speed_level` is unchanged, on success
`current_speed_level` becomes `level` and the error `PWR_OK`. -/
theorem c1_request_speed_level_behaviour (w : WriteOutcome) (ctx : PwrCtx)
    (island level : Nat) (isl : PhysIsland)
    (hinit : pwr_is_initialized ctx PWR_MODULE_DVFS = true)
    (hisl : island < ctx.num_phys_islands)
    (hget : ctx.phys_islands[island]? = some isl)
    (hlen : isl.freqs.length = isl.num_speed_levels)
    (hnum : (isl.num_speed_levels : Int) =
      isl.max_speed_level - isl.min_speed_level + 1)
    (hmin : isl.min_speed_level = 0)
    (hpos : 0 < isl.num_speed_levels) :
    (((level : Int) < isl.min_speed_level ∨
      (level : Int) > isl.max_speed_level) →
      pwr_request_speed_level w ctx island level =
        some ⟨{ctx with error := PWR_UNSUPPORTED_SPEED_LEVEL}, none⟩) ∧
    ((((level : Int) = isl.min_speed_level ∨
       (level : Int) = isl.max_speed_level) ∧
      (level : Int) = isl.current_speed_level) →
      pwr_request_speed_level w ctx island level =
        some ⟨{ctx with error := PWR_ALREADY_MINMAX}, none⟩) ∧
    ((isl.min_speed_level ≤ (level : Int) ∧
      (level : Int) ≤ isl.max_speed_level ∧
      ¬ (((level : Int) = isl.min_speed_level ∨
          (level : Int) = isl.max_speed_level) ∧
         (level : Int) = isl.current_speed_level)) →
      isl.freqs[level]?.isSome = true ∧
      (w ≠ .ok →
        pwr_request_speed_level w ctx island level =
          some ⟨{ctx with error := PWR_DVFS_ERR}, isl.freqs[level]?⟩) ∧
      (w = .ok →
        pwr_request_speed_level w ctx island level =
          some ⟨{ctx with
                  error := PWR_OK,
                  phys_islands := ctx.phys_islands.set island
                    {isl with current_speed_level := (level : Int)}},
                isl.freqs[level]?⟩)) := by
  rw [request_unfold w ctx island level isl hinit hisl hget]
  refine ⟨?_, ?_, ?_⟩
  · intro hout
    rw [if_pos hout]
  · intro hmm
    rw [if_neg (by omega), if_pos hmm]
  · rintro ⟨h1, h2, h3⟩
    have hlt : level < isl.freqs.length := by omega
    have hsome : isl.freqs[level]? = some isl.freqs[level] :=
      List.getElem?_eq_getElem hlt
    rw [if_neg (by omega), if_neg h3, hsome]
    refine ⟨rfl, ?_, ?_⟩
    · intro hw
      cases w with
      | writeErr => rfl
      | flushErr => rfl
      | ok => exact absurd rfl hw
    · intro hw
      subst hw
      rfl

/-- C1 witness: on `ctxA` (levels 0..1, current 1), requesting level 0
with a succeeding write moves the island to level 0 after writing
frequency 1600. -/
theorem c1_request_speed_level_witness :
    pwr_request_speed_level .ok ctxA 0 0 =
      some ⟨⟨3, 0, 1, 1, [⟨[0], 2, 0, 0, 1, [1600, 800], 42⟩]⟩,
            some 1600⟩ := by
  have h := ((c1_request_speed_level_behaviour .ok ctxA 0 0 islA
    (by decide) (by decide) (by decide) (by decide) (by decide)
    (by decide) (by decide)).2.2 (by decide)).2.2 rfl
  exact h.trans (by decide)

/-- C7: `pwr_increase_speed_level` on an initialized context produces
exactly the state and error of `pwr_request_speed_level` at
`current + delta` (wrapping `unsigned int` addition); in particular a
delta taking the level outside `[min_speed_level, max_speed_level]` —
including below 0 through wraparound — yields
`PWR_UNSUPPORTED_SPEED_LEVEL` with no state change and no clamping. -/
theorem c7_increase_delegates_to_request (w : WriteOutcome) (ctx : PwrCtx)
    (island : Nat) (delta : Int)
    (hinit : pwr_is_initialized ctx PWR_MODULE_DVFS = true) :
    (∀ ctx1 current_level,
      pwr_current_speed_level ctx island = some (ctx1, current_level) →
      pwr_increase_speed_level w ctx island delta =
        pwr_request_speed_level w ctx island (u32add current_level delta)) ∧
    (pwr_current_speed_level ctx island = none →
      pwr_increase_speed_level w ctx island delta = none) ∧
    (∀ isl, island < ctx.num_phys_islands →
      ctx.phys_islands[island]? = some isl →
      (((u32add (toU32 isl.current_speed_level) delta : Nat) : Int) <
          isl.min_speed_level ∨
       ((u32add (toU32 isl.current_speed_level) delta : Nat) : Int) >
          isl.max_speed_level) →
      pwr_increase_speed_level w ctx island delta =
        some ⟨{ctx with error := PWR_UNSUPPORTED_SPEED_LEVEL}, none⟩) := by
  have hbody : ∀ r, pwr_current_speed_level ctx island = r →
      pwr_increase_speed_level w ctx island delta =
        (match r with
          | none => none
          | some (ctx1, current_level) =>
            pwr_request_speed_level w ctx1 island
              (u32add current_level delta)) := by
    intro r hr
    unfold pwr_increase_speed_level
    rw [hinit, hr]
    rfl
  refine ⟨?_, ?_, ?_⟩
  · intro ctx1 current_level hcur
    rw [hbody _ hcur]
    obtain ⟨e, rfl⟩ := current_speed_level_shape ctx ctx1 island
      current_level hcur
    exact request_ignores_error w ctx island (u32add current_level delta) e
  · intro hcur
    rw [hbody _ hcur]
  · intro isl hisl hget hout
    have hcur := current_speed_level_unfold ctx island isl hinit hisl hget
    rw [hbody _ hcur]
    show pwr_request_speed_level w {ctx with error := PWR_OK} island
      (u32add (toU32 isl.current_speed_level) delta) = _
    rw [request_ignores_error,
      request_unfold w ctx island (u32add (toU32 isl.current_speed_level)
        delta) isl hinit hisl hget, if_pos hout]

/-- C7 witness: on `ctxA` (current level 1, max 1), a delta of −5 wraps
to 4294967292, which is rejected as `PWR_UNSUPPORTED_SPEED_LEVEL` with
no state change. -/
theorem c7_increase_witness :
    pwr_increase_speed_level .ok ctxA 0 (-5) =
      some ⟨{ctxA with error := PWR_UNSUPPORTED_SPEED_LEVEL}, none⟩ :=
  (c7_increase_delegates_to_request .ok ctxA 0 (-5) (by decide)).2.2 islA
    (by decide) (by decide) (by decide)

/-! ### The speed-level invariant (C5) -/

/-- Per-island invariant: `min_speed_level = 0`,
`min ≤ current ≤ max`, and
`num_speed_levels = max - min + 1 > 0`. -/
def IslandInv (isl : PhysIsland) : Prop :=
  isl.min_speed_level = 0 ∧
  isl.min_speed_level ≤ isl.current_speed_level ∧
  isl.current_speed_level ≤ isl.max_speed_level ∧
  (isl.num_speed_levels : Int) =
    isl.max_speed_level - isl.min_speed_level + 1 ∧
  0 < isl.max_speed_level - isl.min_speed_level + 1

instance (isl : PhysIsland) : Decidable (IslandInv isl) := by
  unfold IslandInv
  infer_instance

/-- The invariant over all islands of a context. -/
def DvfsInv (ctx : PwrCtx) : Prop :=
  ∀ isl ∈ ctx.phys_islands, IslandInv isl

instance (ctx : PwrCtx) : Decidable (DvfsInv ctx) := by
  unfold DvfsInv
  infer_instance

/-- One observable operation of the Speed module. -/
inductive DvfsOp where
  | readNum : Nat → DvfsOp
  | readCur : Nat → DvfsOp
  | request : WriteOutcome → Nat → Nat → DvfsOp
  | increase : WriteOutcome → Nat → Int → DvfsOp
  | agility : Nat → Nat → Nat → DvfsOp
deriving Repr, DecidableEq

/-- The context component of one operation's outcome. -/
def applyOp : DvfsOp → PwrCtx → Option PwrCtx
  | .readNum i, ctx => (pwr_num_speed_levels ctx i).map Prod.fst
  | .readCur i, ctx => (pwr_current_speed_level ctx i).map Prod.fst
  | .request w i l, ctx =>
    (pwr_request_speed_level w ctx i l).map ReqResult.ctx
  | .increase w i d, ctx =>
    (pwr_increase_speed_level w ctx i d).map ReqResult.ctx
  | .agility i f t, ctx => (pwr_agility ctx i f t).map Prod.fst

/-- A sequence of operations, stopping at undefined behaviour. -/
def applyOps : List DvfsOp → PwrCtx → Option PwrCtx
  | [], ctx => some ctx
  | op :: ops, ctx =>
    match applyOp op ctx with
    | none => none
    | some ctx1 => applyOps ops ctx1

theorem dvfsInv_error (ctx : PwrCtx) (e : Int) (h : DvfsInv ctx) :
    DvfsInv {ctx with error := e} := h

theorem findLevel_le (fs : List Int) (cur : Int) :
    findLevel fs cur ≤ fs.length := by
  induction fs with
  | nil => simp [findLevel]
  | cons f fs ih =>
    by_cases h : f = cur
    · simp [findLevel, h]
    · simp only [findLevel, h, if_false, List.length_cons]
      omega

theorem insertByCompareFreq_length (x : Int) (l : List Int) :
    (insertByCompareFreq x l).length = l.length + 1 := by
  induction l with
  | nil => rfl
  | cons y ys ih =>
    unfold insertByCompareFreq
    split
    · rfl
    · simp [ih]

theorem gArraySortFreq_length (l : List Int) :
    (gArraySortFreq l).length = l.length := by
  induction l with
  | nil => rfl
  | cons x xs ih => simp [gArraySortFreq, insertByCompareFreq_length, ih]

theorem sort_and_cast_freqs_length (l : List String) :
    (sort_and_cast_freqs l).length = l.length := by
  simp [sort_and_cast_freqs, gArraySortFreq_length]

/-- A successful per-island speed initialization keeps the cpu list,
establishes the invariant and sizes the table to the level count. -/
theorem initIslandSpeeds_ok (env : DvfsEnv) (isl isl' : PhysIsland)
    (h : initIslandSpeeds env isl = some (.ok isl')) :
    isl'.cpus = isl.cpus ∧ IslandInv isl' ∧
    isl'.freqs.length = isl'.num_speed_levels := by
  unfold initIslandSpeeds at h
  cases hc0 : isl.cpus[0]? with
  | none =>
    rw [hc0] at h
    exact absurd h (by simp)
  | some cpu0 =>
  rw [hc0] at h
  dsimp only at h
  cases hav : env.avail cpu0 with
  | none =>
    rw [hav] at h
    exact absurd h (by simp)
  | some content =>
  rw [hav] at h
  dsimp only at h
  cases hts : gSplit content with
  | nil =>
    rw [hts] at h
    exact absurd h (by simp)
  | cons t ts =>
  rw [hts] at h
  dsimp only at h
  cases hmc : maxCurFreq env isl.cpus.length with
  | none =>
    rw [hmc] at h
    exact absurd h (by simp)
  | some cur =>
  rw [hmc] at h
  dsimp only at h
  split at h
  · exact absurd h (by simp)
  next hlvl =>
  injection h with h1
  injection h1 with h2
  subst h2
  have hlen : (sort_and_cast_freqs
      (List.take ((t :: ts).length - 1) (t :: ts))).length =
      (t :: ts).length - 1 := by
    rw [sort_and_cast_freqs_length, List.length_take]
    omega
  have hfl := findLevel_le (sort_and_cast_freqs
    (List.take ((t :: ts).length - 1) (t :: ts))) cur
  rw [hlen] at hfl
  refine ⟨rfl, ⟨rfl, ?_, ?_, ?_, ?_⟩, ?_⟩
  · dsimp only
    omega
  · dsimp only
    omega
  · dsimp only
    omega
  · dsimp only
    omega
  · dsimp only
    exact hlen

/-- All islands of a successful speed initialization satisfy the
invariant. -/
theorem initAllIslands_ok (env : DvfsEnv) (islands islands' : List PhysIsland)
    (h : initAllIslands env islands = some (.ok islands')) :
    ∀ isl' ∈ islands', IslandInv isl' := by
  induction islands generalizing islands' with
  | nil =>
    unfold initAllIslands at h
    injection h with h1
    injection h1 with h2
    subst h2
    simp
  | cons isl rest ih =>
    unfold initAllIslands at h
    split at h
    · exact absurd h (by simp)
    · exact absurd h (by simp)
    next isl1 heq =>
      split at h
      · exact absurd h (by simp)
      · exact absurd h (by simp)
      next rest' heq' =>
        injection h with h1
        injection h1 with h2
        subst h2
        intro x hx
        rcases List.mem_cons.mp hx with hx | hx
        · subst hx
          exact (initIslandSpeeds_ok env isl x heq).2.1
        · exact ih rest' heq' x hx

/-- `pwr_is_initialized` only reads the bitmask. -/
theorem is_initialized_congr (ctx1 ctx2 : PwrCtx) (m : Nat)
    (h : ctx1.module_init = ctx2.module_init) :
    pwr_is_initialized ctx1 m = pwr_is_initialized ctx2 m := by
  unfold pwr_is_initialized
  rw [h]

/-- Establishment: a run of `init_speed_levels` that sets the DVFS bit
(starting from a context whose bit was clear, as the source asserts)
leaves every island satisfying the invariant. -/
theorem init_speed_levels_establishes_inv (env : DvfsEnv) (ctx ctx' : PwrCtx)
    (hpre : pwr_is_initialized ctx PWR_MODULE_DVFS = false)
    (h : init_speed_levels env ctx = some ctx')
    (hbit : pwr_is_initialized ctx' PWR_MODULE_DVFS = true) :
    DvfsInv ctx' := by
  unfold init_speed_levels at h
  split at h
  · injection h with h1
    subst h1
    have hbit' : Nat.testBit ctx.module_init PWR_MODULE_DVFS = true := hbit
    have hpre' : Nat.testBit ctx.module_init PWR_MODULE_DVFS = false := hpre
    rw [hpre'] at hbit'
    exact absurd hbit' (by simp)
  split at h
  · exact absurd h (by simp)
  · injection h with h1
    subst h1
    have hbit' : Nat.testBit ctx.module_init PWR_MODULE_DVFS = true := hbit
    have hpre' : Nat.testBit ctx.module_init PWR_MODULE_DVFS = false := hpre
    rw [hpre'] at hbit'
    exact absurd hbit' (by simp)
  next islands' heq =>
    split at h
    · exact absurd h (by simp)
    · injection h with h1
      subst h1
      have hbit' : Nat.testBit ctx.module_init PWR_MODULE_DVFS = true := hbit
      have hpre' : Nat.testBit ctx.module_init PWR_MODULE_DVFS = false := hpre
      rw [hpre'] at hbit'
      exact absurd hbit' (by simp)
    · injection h with h1
      subst h1
      exact initAllIslands_ok env ctx.phys_islands islands' heq

/-- `pwr_request_speed_level` preserves the invariant: on the write
path the new current level was validated against the island's own
bounds. -/
theorem request_preserves_inv (w : WriteOutcome) (ctx : PwrCtx)
    (island level : Nat) (r : ReqResult)
    (hinv : DvfsInv ctx)
    (h : pwr_request_speed_level w ctx island level = some r) :
    DvfsInv r.ctx := by
  unfold pwr_request_speed_level at h
  split at h
  · injection h with h1
    rw [← h1]
    exact hinv
  split at h
  · injection h with h1
    rw [← h1]
    exact hinv
  split at h
  · exact absurd h (by simp)
  next isl hget =>
    split at h
    · injection h with h1
      rw [← h1]
      exact hinv
    next hout =>
      split at h
      · injection h with h1
        rw [← h1]
        exact hinv
      split at h
      · exact absurd h (by simp)
      next f hf =>
        split at h
        · injection h with h1
          rw [← h1]
          exact hinv
        · injection h with h1
          rw [← h1]
          exact hinv
        · injection h with h1
          rw [← h1]
          intro x hx
          rcases List.mem_or_eq_of_mem_set hx with hx | hx
          · exact hinv x hx
          · subst hx
            have hisl : isl ∈ ctx.phys_islands := by
              have := List.getElem?_eq_some.mp hget
              obtain ⟨hlt, heq⟩ := this
              rw [← heq]
              exact List.getElem_mem hlt
            obtain ⟨i1, i2, i3, i4, i5⟩ := hinv isl hisl
            exact ⟨i1, by simp only; omega, by simp only; omega,
              i4, i5⟩

/-- `applyOp` preserves the invariant. -/
theorem applyOp_preserves_inv (op : DvfsOp) (ctx ctx' : PwrCtx)
    (hinv : DvfsInv ctx) (h : applyOp op ctx = some ctx') :
    DvfsInv ctx' := by
  cases op with
  | readNum i =>
    simp only [applyOp, Option.map_eq_some'] at h
    obtain ⟨p, hp, rfl⟩ := h
    unfold pwr_num_speed_levels at hp
    split at hp
    · injection hp with h1
      rw [← h1]
      exact hinv
    split at hp
    · injection hp with h1
      rw [← h1]
      exact hinv
    split at hp
    · exact absurd hp (by simp)
    · injection hp with h1
      rw [← h1]
      exact hinv
  | readCur i =>
    simp only [applyOp, Option.map_eq_some'] at h
    obtain ⟨p, hp, rfl⟩ := h
    obtain ⟨e, he⟩ := current_speed_level_shape ctx p.1 i p.2 (by
      rw [← hp])
    rw [he]
    exact hinv
  | request w i l =>
    simp only [applyOp, Option.map_eq_some'] at h
    obtain ⟨r, hr, rfl⟩ := h
    exact request_preserves_inv w ctx i l r hinv hr
  | increase w i d =>
    simp only [applyOp, Option.map_eq_some'] at h
    obtain ⟨r, hr, rfl⟩ := h
    unfold pwr_increase_speed_level at hr
    split at hr
    · injection hr with h1
      rw [← h1]
      exact hinv
    · split at hr
      · exact absurd hr (by simp)
      next ctx1 cur hcur =>
        obtain ⟨e, he⟩ := current_speed_level_shape ctx ctx1 i cur hcur
        subst he
        exact request_preserves_inv w _ i (u32add cur d) r
          (dvfsInv_error ctx e hinv) hr
  | agility i f t =>
    simp only [applyOp, Option.map_eq_some'] at h
    obtain ⟨p, hp, rfl⟩ := h
    unfold pwr_agility at hp
    split at hp
    · injection hp with h1
      rw [← h1]
      exact hinv
    split at hp
    · exact absurd hp (by simp)
    · split at hp
      · injection hp with h1
        rw [← h1]
        exact hinv
      split at hp
      · injection hp with h1
        rw [← h1]
        exact hinv
      · injection hp with h1
        rw [← h1]
        exact hinv

/-- `applyOps` preserves the invariant. -/
theorem applyOps_preserves_inv (ops : List DvfsOp) (ctx ctx' : PwrCtx)
    (hinv : DvfsInv ctx) (h : applyOps ops ctx = some ctx') :
    DvfsInv ctx' := by
  induction ops generalizing ctx with
  | nil =>
    unfold applyOps at h
    injection h with h1
    subst h1
    exact hinv
  | cons op ops ih =>
    unfold applyOps at h
    split at h
    · exact absurd h (by simp)
    next ctx1 hop =>
      exact ih ctx1 (applyOp_preserves_inv op ctx ctx1 hinv hop) h

/-- C5: for every context produced by a successful Speed-module
initialization and any subsequent sequence of speed-level operations,
every island satisfies `min_speed_level = 0`,
`min_speed_level ≤ current_speed_level ≤ max_speed_level` and
`num_speed_levels = max_speed_level - min_speed_level + 1 > 0`
(the content of `IslandInv`). -/
theorem c5_speed_level_invariants (env : DvfsEnv) (ctx ctx0 ctx' : PwrCtx)
    (ops : List DvfsOp)
    (hpre : pwr_is_initialized ctx PWR_MODULE_DVFS = false)
    (hinit : init_speed_levels env ctx = some ctx0)
    (hbit : pwr_is_initialized ctx0 PWR_MODULE_DVFS = true)
    (hops : applyOps ops ctx0 = some ctx') :
    DvfsInv ctx' :=
  applyOps_preserves_inv ops ctx0 ctx'
    (init_speed_levels_establishes_inv env ctx ctx0 hpre hinit hbit) hops

/-- C5 witness: initialize `ctxD` from `envD` and then successfully
request level 1; the invariant holds afterwards. -/
theorem c5_speed_level_invariants_witness :
    DvfsInv ⟨3, 0, 1, 1, [⟨[0], 2, 1, 0, 1, [2000, 1000], 100⟩]⟩ :=
  c5_speed_level_invariants envD ctxD
    ⟨3, 0, 1, 1, [⟨[0], 2, 0, 0, 1, [2000, 1000], 100⟩]⟩
    ⟨3, 0, 1, 1, [⟨[0], 2, 1, 0, 1, [2000, 1000], 100⟩]⟩
    [DvfsOp.request .ok 0 1]
    (by decide) (by decide) (by decide) (by decide)

/-! ### Discovery partition lemmas (C3) -/

/-- The discovery accumulator only grows. -/
theorem discoverFrom_subset (env : StructEnv) (cs : List Nat)
    (acc res : List (List Nat))
    (h : discoverFrom env cs acc = some res) :
    ∀ b ∈ acc, b ∈ res := by
  induction cs generalizing acc with
  | nil =>
    unfold discoverFrom at h
    injection h with h1
    subst h1
    exact fun b hb => hb
  | cons c0 cs ih =>
    unfold discoverFrom at h
    split at h
    · exact absurd h (by simp)
    next key hkey =>
      split at h
      · exact ih acc h
      · exact fun b hb => ih (acc ++ [key]) h b (List.mem_append_left _ hb)

/-- Every scanned cpu's key ends up among the discovered islands. -/
theorem discoverFrom_covers (env : StructEnv) (cs : List Nat)
    (acc res : List (List Nat))
    (h : discoverFrom env cs acc = some res) :
    ∀ c ∈ cs, ∃ L, membKey env c = some L ∧ L ∈ res := by
  induction cs generalizing acc with
  | nil => exact fun c hc => absurd hc (by simp)
  | cons c0 cs ih =>
    unfold discoverFrom at h
    split at h
    · exact absurd h (by simp)
    next key hkey =>
      split at h
      next hmem =>
        intro c hc
        rcases List.mem_cons.mp hc with rfl | hc
        · exact ⟨key, hkey, discoverFrom_subset env cs acc res h key hmem⟩
        · exact ih acc h c hc
      next hmem =>
        intro c hc
        rcases List.mem_cons.mp hc with rfl | hc
        · exact ⟨key, hkey,
            discoverFrom_subset env cs (acc ++ [key]) res h key (by simp)⟩
        · exact ih (acc ++ [key]) h c hc

/-- Every discovered island is either inherited from the accumulator or
is some scanned cpu's key. -/
theorem discoverFrom_src (env : StructEnv) (cs : List Nat)
    (acc res : List (List Nat))
    (h : discoverFrom env cs acc = some res) :
    ∀ b ∈ res, b ∈ acc ∨ ∃ c ∈ cs, membKey env c = some b := by
  induction cs generalizing acc with
  | nil =>
    unfold discoverFrom at h
    injection h with h1
    subst h1
    exact fun b hb => Or.inl hb
  | cons c0 cs ih =>
    unfold discoverFrom at h
    split at h
    · exact absurd h (by simp)
    next key hkey =>
      split at h
      · intro b hb
        rcases ih acc h b hb with hb' | ⟨c, hc, hm⟩
        · exact Or.inl hb'
        · exact Or.inr ⟨c, List.mem_cons_of_mem _ hc, hm⟩
      · intro b hb
        rcases ih (acc ++ [key]) h b hb with hb' | ⟨c, hc, hm⟩
        · rcases List.mem_append.mp hb' with hb2 | hb2
          · exact Or.inl hb2
          · have hbk : b = key := by simpa using hb2
            subst hbk
            exact Or.inr ⟨c0, List.mem_cons_self _ _, hkey⟩
        · exact Or.inr ⟨c, List.mem_cons_of_mem _ hc, hm⟩

/-- The deep-equality deduplication produces pairwise-distinct keys. -/
theorem discoverFrom_nodup (env : StructEnv) (cs : List Nat)
    (acc res : List (List Nat))
    (h : discoverFrom env cs acc = some res) (hnd : acc.Nodup) :
    res.Nodup := by
  induction cs generalizing acc with
  | nil =>
    unfold discoverFrom at h
    injection h with h1
    subst h1
    exact hnd
  | cons c0 cs ih =>
    unfold discoverFrom at h
    split at h
    · exact absurd h (by simp)
    next key hkey =>
      split at h
      next hmem => exact ih acc h hnd
      next hmem =>
        refine ih (acc ++ [key]) h ?_
        refine hnd.append (List.nodup_singleton key) ?_
        intro a ha hk
        rw [List.mem_singleton.mp hk] at ha
        exact hmem ha

/-- The agility loop preserves the discovered cpu lists, in order. -/
theorem agilityAll_cpus (env : StructEnv) (keys : List (List Nat))
    (islands : List PhysIsland)
    (h : agilityAll env keys = some (.ok islands)) :
    islands.map (fun i => i.cpus) = keys := by
  induction keys generalizing islands with
  | nil =>
    unfold agilityAll at h
    injection h with h1
    injection h1 with h2
    subst h2
    rfl
  | cons cpus rest ih =>
    unfold agilityAll at h
    split at h
    · exact absurd h (by simp)
    next c0 hc0 =>
      split at h
      · exact absurd h (by simp)
      next ag hag =>
        split at h
        · exact absurd h (by simp)
        · exact absurd h (by simp)
        next rest' hrest =>
          injection h with h1
          injection h1 with h2
          subst h2
          simp only [List.map_cons, ih rest' hrest]

/-- C3 amended: discovery performs no consistency validation, so the
partition property needs the hypothesis that the membership data is
consistent: every scanned cpu's parsed, sorted membership list contains
that cpu, mentions only discovered cpu ids, and any two cpus' lists are
identical or disjoint.  Under that hypothesis, a discovery run that
sets the STRUCT bit (from a context whose bit was clear, as the source
asserts) yields islands whose cpu sets cover every cpu id in
`0..num_phys_cpu-1`, contain only such ids, and are pairwise disjoint —
an exact partition. -/
theorem c3_partition_amended (env : StructEnv) (n : Nat) (ctx ctx' : PwrCtx)
    (hrun : init_struct_module env n ctx = some ctx')
    (hpre : pwr_is_initialized ctx PWR_MODULE_STRUCT = false)
    (hacc : pwr_is_initialized ctx' PWR_MODULE_STRUCT = true)
    (hself : ∀ c, c < n → ∀ L, membKey env c = some L → c ∈ L)
    (hbound : ∀ c, c < n → ∀ L, membKey env c = some L → ∀ x ∈ L, x < n)
    (hcons : ∀ c c', c < n → c' < n → ∀ L L', membKey env c = some L →
      membKey env c' = some L' → L = L' ∨ ∀ x ∈ L, x ∉ L') :
    ctx'.num_phys_cpu = n ∧
    (∀ cpu, cpu < n → ∃ isl ∈ ctx'.phys_islands, cpu ∈ isl.cpus) ∧
    (∀ isl ∈ ctx'.phys_islands, ∀ x ∈ isl.cpus, x < n) ∧
    ctx'.phys_islands.Pairwise (fun a b => ∀ x ∈ a.cpus, x ∉ b.cpus) := by
  unfold init_struct_module at hrun
  dsimp only at hrun
  split at hrun
  · injection hrun with h1
    subst h1
    have hacc' : Nat.testBit ctx.module_init PWR_MODULE_STRUCT = true := hacc
    have hpre' : Nat.testBit ctx.module_init PWR_MODULE_STRUCT = false := hpre
    rw [hpre'] at hacc'
    exact absurd hacc' (by simp)
  next keys hkeys =>
    split at hrun
    · exact absurd hrun (by simp)
    · injection hrun with h1
      subst h1
      have hacc' : Nat.testBit ctx.module_init PWR_MODULE_STRUCT = true :=
        hacc
      have hpre' : Nat.testBit ctx.module_init PWR_MODULE_STRUCT = false :=
        hpre
      rw [hpre'] at hacc'
      exact absurd hacc' (by simp)
    next islands hisl =>
      injection hrun with h1
      subst h1
      unfold discoverIslands at hkeys
      have hmap := agilityAll_cpus env keys islands hisl
      have key_of : ∀ isl ∈ islands,
          ∃ c, c < n ∧ membKey env c = some isl.cpus := by
        intro isl hislmem
        have hLk : isl.cpus ∈ keys := by
          rw [← hmap]
          exact List.mem_map_of_mem _ hislmem
        rcases discoverFrom_src env (List.range n) [] keys hkeys
            isl.cpus hLk with habs | ⟨c, hc, hm⟩
        · exact absurd habs (by simp)
        · exact ⟨c, List.mem_range.mp hc, hm⟩
      refine ⟨rfl, ?_, ?_, ?_⟩
      · intro cpu hcpu
        obtain ⟨L, hm, hLk⟩ := discoverFrom_covers env (List.range n) []
          keys hkeys cpu (List.mem_range.mpr hcpu)
        rw [← hmap] at hLk
        obtain ⟨isl, hislmem, hcpuseq⟩ := List.mem_map.mp hLk
        refine ⟨isl, hislmem, ?_⟩
        have := hself cpu hcpu L hm
        rw [hcpuseq]
        exact this
      · intro isl hislmem x hx
        obtain ⟨c, hcn, hm⟩ := key_of isl hislmem
        exact hbound c hcn isl.cpus hm x hx
      · have hnd := discoverFrom_nodup env (List.range n) [] keys hkeys
          List.nodup_nil
        have hnd2 : (islands.map (fun i => i.cpus)).Pairwise (· ≠ ·) := by
          rw [hmap]
          exact hnd
        rw [List.pairwise_map] at hnd2
        refine List.Pairwise.imp_of_mem ?_ hnd2
        intro a b ha hb hne
        obtain ⟨c, hcn, hmc⟩ := key_of a ha
        obtain ⟨c', hcn', hmc'⟩ := key_of b hb
        rcases hcons c c' hcn hcn' a.cpus b.cpus hmc hmc' with heq | hdisj
        · exact absurd heq hne
        · exact hdisj

/-- Consistent discovery fixture: both cpus report the domain `0 1`. -/
def envF : StructEnv where
  freqdom := fun c => if c < 2 then some ("0 1") else none
  affected := fun _ => none
  translat := fun _ => some 5

/-- The context produced by discovery on `envF`. -/
def ctxF : PwrCtx := ⟨1, 0, 2, 1, [⟨[0, 1], 0, 0, 0, 0, [], 5⟩]⟩

/-- C3 amended witness: on the consistent two-cpu single-island input
`envF`, the accepted discovery result partitions `{0, 1}`. -/
theorem c3_partition_amended_witness :
    ctxF.num_phys_cpu = 2 ∧
    (∀ cpu, cpu < 2 → ∃ isl ∈ ctxF.phys_islands, cpu ∈ isl.cpus) ∧
    (∀ isl ∈ ctxF.phys_islands, ∀ x ∈ isl.cpus, x < 2) ∧
    ctxF.phys_islands.Pairwise (fun a b => ∀ x ∈ a.cpus, x ∉ b.cpus) := by
  have hm0 : membKey envF 0 = some [0, 1] := by decide
  have hm1 : membKey envF 1 = some [0, 1] := by decide
  refine c3_partition_amended envF 2 ctx0 ctxF (by decide) (by decide)
    (by decide) ?_ ?_ ?_
  · intro c hc L hm
    interval_cases c
    · rw [hm0] at hm
      injection hm with h1
      subst h1
      decide
    · rw [hm1] at hm
      injection hm with h1
      subst h1
      decide
  · intro c hc L hm x hx
    interval_cases c
    · rw [hm0] at hm
      injection hm with h1
      subst h1
      have : x = 0 ∨ x = 1 := by simpa using hx
      omega
    · rw [hm1] at hm
      injection hm with h1
      subst h1
      have : x = 0 ∨ x = 1 := by simpa using hx
      omega
  · intro c c' hc hc' L L' hm hm'
    interval_cases c <;> interval_cases c'
    · rw [hm0] at hm hm'
      injection hm with h1
      injection hm' with h2
      subst h1
      subst h2
      exact Or.inl rfl
    · rw [hm0] at hm
      rw [hm1] at hm'
      injection hm with h1
      injection hm' with h2
      subst h1
      subst h2
      exact Or.inl rfl
    · rw [hm1] at hm
      rw [hm0] at hm'
      injection hm with h1
      injection hm' with h2
      subst h1
      subst h2
      exact Or.inl rfl
    · rw [hm1] at hm hm'
      injection hm with h1
      injection hm' with h2
      subst h1
      subst h2
      exact Or.inl rfl

end PowerAPI
